import Mathlib

/-!
Verification of the torifune receipt-OCR core (src-tauri).

The development shallowly embeds the Rust source:
the Google Document AI entity resolver (providers/googledocumentai.rs),
the provider configuration checks and network pipeline (modelled with an
explicit environment of external effects plus an event trace), and the
batch orchestrator (commands.rs, batch_ocr_receipts) including its
semaphore admission gate, modelled as an interleaving transition system.

Numeric values are modelled as exact rationals: Rust f64 parsing of a
decimal literal is idealised to the exact rational value of the literal
(the special inputs inf, infinity and nan are treated as parse failures;
no claim settled here depends on them).
-/

namespace Torifune

/-! ## Data model: Document AI response types (googledocumentai.rs, lines 39-78) -/

/-- Embeds struct DocumentAiMoneyValue: units is an optional decimal string,
nanos an optional 64-bit integer (modelled as unbounded Int; the values in
play are far below the i64 range). -/
structure DocumentAiMoneyValue where
  units : Option String
  nanos : Option Int
deriving DecidableEq, Repr

/-- Embeds struct DocumentAiDateValue with optional year, month, day. -/
structure DocumentAiDateValue where
  year : Option Int
  month : Option Int
  day : Option Int
deriving DecidableEq, Repr

/-- Embeds struct DocumentAiNormalizedValue: optional text, money and date. -/
structure DocumentAiNormalizedValue where
  text : Option String
  moneyValue : Option DocumentAiMoneyValue
  dateValue : Option DocumentAiDateValue
deriving DecidableEq, Repr

/-- Embeds struct DocumentAiEntity: type tag, mention text, normalized value
and the nested child entities under the properties relation. -/
inductive DocumentAiEntity : Type where
  | mk (entityType : Option String) (mentionText : Option String)
       (normalizedValue : Option DocumentAiNormalizedValue)
       (properties : Option (List DocumentAiEntity)) : DocumentAiEntity
deriving Repr

/-- Field accessor for the serde rename type tag. -/
def DocumentAiEntity.entityType : DocumentAiEntity → Option String
  | .mk t _ _ _ => t

/-- Field accessor for mention_text. -/
def DocumentAiEntity.mentionText : DocumentAiEntity → Option String
  | .mk _ m _ _ => m

/-- Field accessor for normalized_value. -/
def DocumentAiEntity.normalizedValue : DocumentAiEntity → Option DocumentAiNormalizedValue
  | .mk _ _ n _ => n

/-- Field accessor for properties (the child entities). -/
def DocumentAiEntity.properties : DocumentAiEntity → Option (List DocumentAiEntity)
  | .mk _ _ _ p => p

/-! ## Rational model of Rust numeric string parsing -/

/-- Value of a list of ASCII digit characters read left to right in base 10. -/
def digitsToNat (cs : List Char) : ℕ :=
  cs.foldl (fun acc c => 10 * acc + (c.toNat - 48)) 0

/-- Parses a nonempty all-digit character list; fails otherwise. -/
def parseDigitsNat (cs : List Char) : Option ℕ :=
  if cs ≠ [] ∧ cs.all Char.isDigit then some (digitsToNat cs) else none

/-- Parses an optionally signed nonempty digit string to an integer.
This is the model of Rust integer FromStr (used only by the definition
written from the specification wording, which asks for an integer parse). -/
def parseSignedDigits (cs : List Char) : Option ℤ :=
  match cs with
  | '+' :: ds => (parseDigitsNat ds).map (fun n => (n : ℤ))
  | '-' :: ds => (parseDigitsNat ds).map (fun n => -(n : ℤ))
  | ds => (parseDigitsNat ds).map (fun n => (n : ℤ))

/-- Exact rational value of an integer digit part and a fraction digit
part: the integer value plus the fraction value scaled below one. -/
def mantVal (intDigits fracDigits : List Char) : ℚ :=
  (digitsToNat intDigits : ℚ) + (digitsToNat fracDigits : ℚ) / (10 : ℚ) ^ fracDigits.length

/-- Applies an optional exponent suffix to a parsed mantissa: the empty
suffix keeps the mantissa, a letter e or E followed by an optionally
signed digit count scales by the corresponding power of ten, and any
other suffix is a parse failure. -/
def applyExp (mant : ℚ) : List Char → Option ℚ
  | [] => some mant
  | 'e' :: es => (parseSignedDigits es).map (fun k => mant * (10 : ℚ) ^ k)
  | 'E' :: es => (parseSignedDigits es).map (fun k => mant * (10 : ℚ) ^ k)
  | _ => none

/-- Parses the unsigned part of a float literal: digits with an optional
dot and fraction (at least one digit overall), then an optional exponent.
Yields the exact rational value. -/
def parseMantissaExp (cs : List Char) : Option ℚ :=
  match cs.dropWhile Char.isDigit with
  | '.' :: rest2 =>
    if cs.takeWhile Char.isDigit = [] ∧ rest2.takeWhile Char.isDigit = [] then none
    else applyExp (mantVal (cs.takeWhile Char.isDigit) (rest2.takeWhile Char.isDigit))
      (rest2.dropWhile Char.isDigit)
  | rest =>
    if cs.takeWhile Char.isDigit = [] then none
    else applyExp (mantVal (cs.takeWhile Char.isDigit) []) rest

/-- Rational idealisation of Rust str parse to f64: an optional sign
followed by a decimal mantissa and optional exponent, with the exact
rational value of the literal. -/
def parseF64 (s : String) : Option ℚ :=
  match s.toList with
  | '-' :: rest => (parseMantissaExp rest).map Neg.neg
  | '+' :: rest => parseMantissaExp rest
  | cs => parseMantissaExp cs

/-- Model of Rust str parse to i64 on a whole string (optional sign and
nonempty digits). Used by the specification-worded resolver variant. -/
def parseIntStr (s : String) : Option ℤ :=
  parseSignedDigits s.toList

/-! ## Entity resolver (googledocumentai.rs, lines 152-221) -/

/-- Embeds fn find_entity: iterate the candidate type list in priority
order; for each candidate type return the first entity in document order
whose type tag equals it; fall through to the next candidate otherwise. -/
def find_entity (entities : List DocumentAiEntity) (types : List String) :
    Option DocumentAiEntity :=
  match types with
  | [] => none
  | t :: rest =>
    match entities.find? (fun e => e.entityType = some t) with
    | some e => some e
    | none => find_entity entities rest

/-- Decimal rendering of a natural number zero-padded to the given width,
as Rust format with a zero fill does for non-negative operands. -/
def padNat (width : ℕ) (n : ℕ) : String :=
  let s := toString n
  if s.length < width then String.mk (List.replicate (width - s.length) '0') ++ s else s

/-- Rust zero-padded integer formatting: the sign occupies one column of
the field width and the zeros pad after it. -/
def padInt (width : ℕ) (n : ℤ) : String :=
  if n < 0 then "-" ++ padNat (width - 1) n.natAbs else padNat width n.toNat

/-- Embeds fn resolve_text: prefer normalized text; else when a date value
carries year, month and day render it zero-padded as YYYY-MM-DD; else fall
back to the mention text (also when the normalized value is absent). -/
def resolve_text (entity : DocumentAiEntity) : Option String :=
  match entity.normalizedValue with
  | some normalized =>
    match normalized.text with
    | some text => some text
    | none =>
      match normalized.dateValue with
      | some dateValue =>
        match dateValue.year, dateValue.month, dateValue.day with
        | some y, some m, some d =>
          some (padInt 4 y ++ "-" ++ padInt 2 m ++ "-" ++ padInt 2 d)
        | _, _, _ => entity.mentionText
      | none => entity.mentionText
  | none => entity.mentionText

/-- Keeps exactly the ASCII digits and dots of a string, as the mention
text fallback branch of fn resolve_total does before parsing. -/
def stripToAmountChars (s : String) : String :=
  String.mk (s.toList.filter (fun c => c.isDigit || c = '.'))

/-- Embeds the normalized-value block of fn resolve_total (lines 187-202):
when the normalized value is present, a money value returns units
(f64-parsed, default 0 on failure) plus nanos over 1e9 unconditionally,
and otherwise a successfully parsed normalized text returns. -/
def resolveTotalNormalized (normalizedValue : Option DocumentAiNormalizedValue) : Option ℚ :=
  match normalizedValue with
  | some normalized =>
    match normalized.moneyValue with
    | some money =>
      some (((money.units.bind parseF64).getD 0)
        + (money.nanos.getD 0 : ℚ) / 1000000000)
    | none =>
      match normalized.text with
      | some text => parseF64 text
      | none => none
  | none => none

/-- Embeds the mention-text block of fn resolve_total (lines 204-209): the
mention text stripped to ASCII digits and dots, parsed as a float. -/
def resolveTotalMention (mentionText : Option String) : Option ℚ :=
  match mentionText with
  | some mention => parseF64 (stripToAmountChars mention)
  | none => none

mutual

/-- Embeds fn resolve_total: the early-return normalized-value block, then
the mention-text block, then the recursive search of the child properties
in order, first success winning; otherwise none. -/
def resolve_total (entity : DocumentAiEntity) : Option ℚ :=
  match entity with
  | .mk _ mentionText normalizedValue properties =>
    let step1 := resolveTotalNormalized normalizedValue
    match step1 with
    | some v => some v
    | none =>
      let step2 := resolveTotalMention mentionText
      match step2 with
      | some v => some v
      | none =>
        match properties with
        | some props => resolve_total_props props
        | none => none

/-- Embeds the for loop over properties inside fn resolve_total: first
child whose recursive resolution succeeds. -/
def resolve_total_props (props : List DocumentAiEntity) : Option ℚ :=
  match props with
  | [] => none
  | p :: rest =>
    match resolve_total p with
    | some v => some v
    | none => resolve_total_props rest

end

end Torifune

namespace Torifune

example : parseF64 ("12.5") = some (25 / 2 : ℚ) := by
  simp [parseF64, parseMantissaExp, applyExp, mantVal, parseDigitsNat, digitsToNat, String.toList]
  norm_num

example : parseF64 ("-12") = some (-12 : ℚ) := by
  simp [parseF64, parseMantissaExp, applyExp, mantVal, parseDigitsNat, digitsToNat, String.toList]

example : parseF64 ("") = none := by
  simp [parseF64, parseMantissaExp, String.toList]

example : stripToAmountChars ("a1,2.3z") = "12.3" := by decide

/-! ## Provider data model (providers/mod.rs) -/

/-- Embeds struct OcrSettings (providers/mod.rs, lines 15-24). -/
structure OcrSettings where
  projectId : Option String
  location : Option String
  processorId : Option String
  serviceAccountJson : Option String
deriving DecidableEq, Repr

/-- Embeds struct ReceiptData (providers/mod.rs, lines 29-42); the amount
is the rational model of the optional f64 total. -/
structure ReceiptData where
  file : String
  merchant : Option String
  date : Option String
  amount : Option ℚ
  currency : Option String
  receiverName : Option String
deriving DecidableEq, Repr

/-- Embeds ReceiptData::new: all optional fields absent. -/
def ReceiptData.new (file : String) : ReceiptData :=
  { file := file, merchant := none, date := none, amount := none,
    currency := none, receiverName := none }

/-- Embeds struct OcrResult (providers/mod.rs, lines 60-67). -/
structure OcrResult where
  success : Bool
  data : Option ReceiptData
  error : Option String
deriving DecidableEq, Repr

/-- Embeds OcrResult::success (the constructor function). -/
def OcrResult.mkSuccess (data : ReceiptData) : OcrResult :=
  { success := true, data := some data, error := none }

/-- Embeds OcrResult::failure (the constructor function). -/
def OcrResult.mkFailure (error : String) : OcrResult :=
  { success := false, data := none, error := some error }

/-- Embeds struct OcrProgressEvent (providers/mod.rs, lines 90-99). -/
structure OcrProgressEvent where
  current : ℕ
  total : ℕ
  fileName : String
  result : Option OcrResult
deriving DecidableEq, Repr

/-- Embeds struct ServiceAccountKey (googledocumentai.rs, lines 14-19). -/
structure ServiceAccountKey where
  clientEmail : String
  privateKey : String
  tokenUri : Option String
deriving DecidableEq, Repr

/-- Embeds struct DocumentAiDocument (googledocumentai.rs, lines 45-47). -/
structure DocumentAiDocument where
  entities : Option (List DocumentAiEntity)

/-- Embeds struct DocumentAiResponse (googledocumentai.rs, lines 40-42). -/
structure DocumentAiResponse where
  document : Option DocumentAiDocument

/-! ## Google Document AI provider (googledocumentai.rs)

The provider performs external effects: JSON credential parsing (serde),
JWT signing (jsonwebtoken) and two HTTPS round trips (reqwest). These
collaborators are modelled as an environment of oracle functions, and
every provider operation additionally returns the ordered trace of
externally visible calls it made, so that claims about which calls happen
(and in which order) are statable. -/

/-- One externally visible call of the provider pipeline. -/
inductive NetEvent : Type where
  | credentialParse
  | tokenRequest
  | documentRequest
deriving DecidableEq, Repr

/-- Environment of external collaborators: serde credential parsing, JWT
assertion signing, the OAuth token HTTP exchange (token endpoint and
assertion to access token or error) and the Document AI process HTTP call
(access token, url, base64 content and mime type to parsed response or
error). -/
structure ProviderEnv where
  parseServiceAccount : String → Except String ServiceAccountKey
  signAssertion : ServiceAccountKey → Except String String
  exchangeToken : String → String → Except String String
  processDocument : String → String → String → String → Except String DocumentAiResponse

/-- Embeds fn is_configured (googledocumentai.rs, lines 236-240): project
id, processor id and service account JSON must all be present. -/
def is_configured (settings : OcrSettings) : Bool :=
  settings.projectId.isSome && settings.processorId.isSome
    && settings.serviceAccountJson.isSome

/-- Embeds fn fetch_access_token (googledocumentai.rs, lines 99-150):
resolve the token endpoint (default Google OAuth URL), sign the claim set
into an assertion (failure returns before any HTTP call), then perform the
token HTTP exchange. The second component is the trace of network calls. -/
def fetch_access_token (env : ProviderEnv) (serviceAccount : ServiceAccountKey) :
    Except String String × List NetEvent :=
  let tokenUri := serviceAccount.tokenUri.getD ("https://oauth2.googleapis.com/token")
  match env.signAssertion serviceAccount with
  | .error e => (.error e, [])
  | .ok assertion => (env.exchangeToken tokenUri assertion, [NetEvent.tokenRequest])

/-- Embeds fn test_connection (googledocumentai.rs, lines 242-255): reject
unconfigured settings before anything else, then parse the service account
credential and fetch an access token; no document submission. -/
def test_connection (env : ProviderEnv) (settings : OcrSettings) :
    Except String Unit × List NetEvent :=
  if is_configured settings = false then (.error ("設定が不完全です"), [])
  else
    match env.parseServiceAccount (settings.serviceAccountJson.getD ("")) with
    | .error e => (.error e, [NetEvent.credentialParse])
    | .ok serviceAccount =>
      match fetch_access_token env serviceAccount with
      | (.error e, evs) => (.error e, NetEvent.credentialParse :: evs)
      | (.ok _, evs) => (.ok (), NetEvent.credentialParse :: evs)

/-- Model of Rust Path file_name with a to_str and unwrap_or fallback to
the whole path (commands.rs lines 148-152 and googledocumentai.rs lines
316-320): the component after the last slash, falling back to the full
path when that component is empty. -/
def basename (path : String) : String :=
  match (path.splitOn ("/")).getLast? with
  | some s => if s = "" then path else s
  | none => path

/-- Embeds the entity-to-record assembly of fn extract_receipt
(googledocumentai.rs, lines 322-352): start from ReceiptData::new on the
file base name, then fill merchant, date and amount from the three fixed
candidate-type lists. The source text assigns the amount resolution to a
field written total; the struct field is named amount (the only field it
can denote), and it is modelled as such. -/
def buildReceipt (fileName : String) (response : DocumentAiResponse) : ReceiptData :=
  let receipt := ReceiptData.new fileName
  match response.document with
  | none => receipt
  | some document =>
    match document.entities with
    | none => receipt
    | some entities =>
      let receipt :=
        match find_entity entities
            ["merchant_name", "supplier_name", "vendor_name", "receipt_merchant_name"] with
        | some e => { receipt with merchant := resolve_text e }
        | none => receipt
      let receipt :=
        match find_entity entities
            ["receipt_date", "purchase_date", "transaction_date", "invoice_date", "date"] with
        | some e => { receipt with date := resolve_text e }
        | none => receipt
      let receipt :=
        match find_entity entities
            ["total_amount", "invoice_total", "receipt_total"] with
        | some e => { receipt with amount := resolve_total e }
        | none => receipt
      receipt

/-- Embeds fn extract_receipt (googledocumentai.rs, lines 257-353): reject
unconfigured settings before anything else; then parse the credential,
fetch an access token, build the processing URL, submit the document and
assemble the receipt record. The second component is the ordered trace of
externally visible calls. -/
def extract_receipt (env : ProviderEnv) (filePath fileContent mimeType : String)
    (settings : OcrSettings) : Except String ReceiptData × List NetEvent :=
  if is_configured settings = false then (.error ("OCR設定が不完全です"), [])
  else
    let projectId := settings.projectId.getD ("")
    let location := settings.location.getD ("us")
    let processorId := settings.processorId.getD ("")
    match env.parseServiceAccount (settings.serviceAccountJson.getD ("")) with
    | .error e => (.error e, [NetEvent.credentialParse])
    | .ok serviceAccount =>
      match fetch_access_token env serviceAccount with
      | (.error e, evs) => (.error e, NetEvent.credentialParse :: evs)
      | (.ok accessToken, evs) =>
        let url := "https://" ++ location ++ "-documentai.googleapis.com/v1/projects/"
          ++ projectId ++ "/locations/" ++ location ++ "/processors/"
          ++ processorId ++ ":process"
        match env.processDocument accessToken url fileContent mimeType with
        | .error e => (.error e, (NetEvent.credentialParse :: evs) ++ [NetEvent.documentRequest])
        | .ok response =>
          (.ok (buildReceipt (basename filePath) response),
            (NetEvent.credentialParse :: evs) ++ [NetEvent.documentRequest])

/-! ## Batch orchestrator (commands.rs, batch_ocr_receipts, lines 110-199)

The orchestrator is parameterised over the provider call as a function
from a request to a result, mirroring the dyn OcrProvider trait-object
dispatch: the batch command never inspects the provider beyond calling
extract_receipt on each request. Each spawned task produces the pair of
its submission index and its result; futures join_all collects those
pairs, the vector is sorted by the stored index and the indices are
dropped. Since task completion is scheduled nondeterministically, the
claims below quantify over an arbitrary permutation of the collected
pairs, which subsumes every completion order. -/

/-- Embeds struct OcrRequest (commands.rs, lines 104-108). -/
structure OcrRequest where
  filePath : String
  fileContent : String
  mimeType : String
deriving DecidableEq, Repr

/-- Embeds const MAX_CONCURRENT_OCR (commands.rs, line 111). -/
def MAX_CONCURRENT_OCR : ℕ := 3

/-- Embeds the per-task result conversion (commands.rs, lines 157-168): a
provider success becomes OcrResult::success, a provider error becomes
OcrResult::failure with the error message. -/
def runJob (extract : OcrRequest → Except String ReceiptData) (request : OcrRequest) :
    OcrResult :=
  match extract request with
  | .ok data => OcrResult.mkSuccess data
  | .error e => OcrResult.mkFailure e

/-- The index-tagged task results (commands.rs, lines 137-190): task i
returns the pair of its enumeration index and its converted result. -/
def indexedResults (extract : OcrRequest → Except String ReceiptData)
    (requests : List OcrRequest) : List (ℕ × OcrResult) :=
  requests.enum.map (fun p => (p.1, runJob extract p.2))

/-- Embeds the sort_by_key on the original index (commands.rs, line 193). -/
def sortByIndex (l : List (ℕ × OcrResult)) : List (ℕ × OcrResult) :=
  l.mergeSort (fun a b => a.1 ≤ b.1)

/-- Embeds the aggregation tail of batch_ocr_receipts (commands.rs, lines
190-198) applied to the collected index-result pairs: sort by the stored
submission index, then keep only the results. -/
def batchCollect (collected : List (ℕ × OcrResult)) : List OcrResult :=
  (sortByIndex collected).map Prod.snd

/-- Embeds fn batch_ocr_receipts (commands.rs, lines 115-198) end to end:
spawn one task per request, collect the index-result pairs and aggregate
them in submission order. -/
def batch_ocr_receipts (extract : OcrRequest → Except String ReceiptData)
    (requests : List OcrRequest) : List OcrResult :=
  batchCollect (indexedResults extract requests)

/-- Embeds the progress emission (commands.rs, lines 170-182) under a
completion schedule: order lists the submission indices in the order the
tasks complete. The k-th completing task observes the atomically
incremented counter value k+1 and emits one event carrying it, the batch
total, the base name of its own file and its own result. -/
def batchEvents (extract : OcrRequest → Except String ReceiptData)
    (requests : List OcrRequest) (order : List ℕ) : List OcrProgressEvent :=
  ((List.range order.length).zip order).filterMap (fun p =>
    (requests[p.2]?).map (fun r =>
      { current := p.1 + 1, total := requests.length,
        fileName := basename r.filePath, result := some (runJob extract r) }))

/-! ## Admission gate transition system (commands.rs, lines 133-187)

The semaphore discipline is modelled as an interleaving transition system
over the per-job phases. A job is pending before its spawned task reaches
the gate, waiting while blocked in semaphore acquire, running from the
moment acquire returns the permit until the task body ends (this covers
the remote extract_receipt call, the counter increment and the progress
emission, since the permit binding lives to the end of the async block and
is dropped there on success and failure alike), and done after the permit
is dropped. The state is the list of phases indexed by submission index. -/

/-- Phase of one spawned batch task relative to the admission gate. -/
inductive JobPhase : Type where
  | pending
  | waiting
  | running
  | done
deriving DecidableEq, Repr

/-- Number of jobs currently holding a semaphore permit (superset of the
jobs inside their remote call). -/
def runningCount (phases : List JobPhase) : ℕ :=
  phases.countP (fun ph => ph = JobPhase.running)

/-- Initial orchestrator state for n submitted jobs: every job pending. -/
def initState (n : ℕ) : List JobPhase :=
  List.replicate n JobPhase.pending

/-- One interleaving step of the batch orchestrator: a task starts and
reaches the gate; a task acquires a permit, enabled only while fewer than
MAX_CONCURRENT_OCR permits (the semaphore capacity, commands.rs line 133)
are held; or a task finishes, dropping its permit unconditionally. -/
inductive BatchStep : List JobPhase → List JobPhase → Prop where
  | spawn (s : List JobPhase) (i : ℕ) (h : s[i]? = some JobPhase.pending) :
      BatchStep s (s.set i JobPhase.waiting)
  | acquire (s : List JobPhase) (i : ℕ) (h : s[i]? = some JobPhase.waiting)
      (hgate : runningCount s < MAX_CONCURRENT_OCR) :
      BatchStep s (s.set i JobPhase.running)
  | finish (s : List JobPhase) (i : ℕ) (h : s[i]? = some JobPhase.running) :
      BatchStep s (s.set i JobPhase.done)

/-- States reachable by the batch orchestrator for n submitted jobs. -/
inductive BatchReachable (n : ℕ) : List JobPhase → Prop where
  | init : BatchReachable n (initState n)
  | step {s t : List JobPhase} (hs : BatchReachable n s) (hst : BatchStep s t) :
      BatchReachable n t

/-! ## Definitions written from the specification wording

The following definitions are written from the specification sentences
(not from the source) and serve as refinement targets: the claims compare
them with the source-translated functions above. -/

/-- Written from the spec wording of findEntity: take the first candidate
type that matches anything, then return the first entity in document order
carrying that type. -/
def findEntitySpec (entities : List DocumentAiEntity) (types : List String) :
    Option DocumentAiEntity :=
  (types.find? (fun t => entities.any (fun e => e.entityType = some t))).bind
    (fun t => entities.find? (fun e => e.entityType = some t))

/-- Written from the claim wording of resolveAmount branch 1, with units
parsed as a decimal integer string defaulting to 0 on parse failure, plus
nanos over 1e9. -/
def specMoneyInt (normalized : Option DocumentAiNormalizedValue) : Option ℚ :=
  normalized.bind (fun nv => nv.moneyValue.map (fun money =>
    (((money.units.bind parseIntStr).getD 0 : ℤ) : ℚ)
      + (money.nanos.getD 0 : ℚ) / 1000000000))

/-- The amended branch 1: units parsed as a decimal number (floating
decimal) defaulting to 0 on parse failure, plus nanos over 1e9. -/
def specMoneyFloat (normalized : Option DocumentAiNormalizedValue) : Option ℚ :=
  normalized.bind (fun nv => nv.moneyValue.map (fun money =>
    ((money.units.bind parseF64).getD 0) + (money.nanos.getD 0 : ℚ) / 1000000000))

/-- Written from the claim wording of resolveAmount branch 2: the
normalized text parsed as a floating decimal. -/
def specNormalizedText (normalized : Option DocumentAiNormalizedValue) : Option ℚ :=
  (normalized.bind (fun nv => nv.text)).bind parseF64

/-- Written from the claim wording of resolveAmount branch 3: the mention
text with every character that is not an ASCII digit or a dot stripped,
parsed as a floating decimal. -/
def specMentionText (mention : Option String) : Option ℚ :=
  mention.bind (fun m => parseF64 (stripToAmountChars m))

mutual

/-- Written from the claim wording of resolveAmount: branches tried in the
fixed order money, normalized text, stripped mention text, depth-first
child recursion, first success winning; units parsed as a decimal integer
string. -/
def resolveAmountSpecInt : DocumentAiEntity → Option ℚ
  | .mk _ mention normalized props =>
    let branch1 := specMoneyInt normalized
    match branch1 with
    | some v => some v
    | none =>
      let branch2 := specNormalizedText normalized
      match branch2 with
      | some v => some v
      | none =>
        let branch3 := specMentionText mention
        match branch3 with
        | some v => some v
        | none =>
          match props with
          | some children => resolveAmountSpecIntList children
          | none => none

/-- Depth-first recursion over the children in order, returning the first
child value (claim branch 4, integer-units variant). -/
def resolveAmountSpecIntList : List DocumentAiEntity → Option ℚ
  | [] => none
  | c :: rest =>
    match resolveAmountSpecInt c with
    | some v => some v
    | none => resolveAmountSpecIntList rest

end

mutual

/-- The amended resolveAmount wording: branches tried in the fixed order
money, normalized text, stripped mention text, depth-first child
recursion, first success winning; units parsed as a decimal number
(floating decimal). -/
def resolveAmountSpecFloat : DocumentAiEntity → Option ℚ
  | .mk _ mention normalized props =>
    let branch1 := specMoneyFloat normalized
    match branch1 with
    | some v => some v
    | none =>
      let branch2 := specNormalizedText normalized
      match branch2 with
      | some v => some v
      | none =>
        let branch3 := specMentionText mention
        match branch3 with
        | some v => some v
        | none =>
          match props with
          | some children => resolveAmountSpecFloatList children
          | none => none

/-- Depth-first recursion over the children in order, returning the first
child value (claim branch 4, float-units variant). -/
def resolveAmountSpecFloatList : List DocumentAiEntity → Option ℚ
  | [] => none
  | c :: rest =>
    match resolveAmountSpecFloat c with
    | some v => some v
    | none => resolveAmountSpecFloatList rest

end

/-- Holds when every numeric source of a normalized value is non-negative:
the money units (when they parse) and nanos, and the normalized text (when
it parses as a number). -/
def nonnegNormalized : Option DocumentAiNormalizedValue → Bool
  | none => true
  | some nv =>
    (match nv.moneyValue with
     | none => true
     | some money =>
       (match money.units.bind parseF64 with
        | some q => decide (0 ≤ q)
        | none => true)
       && decide (0 ≤ money.nanos.getD 0))
    && (match nv.text with
        | none => true
        | some t =>
          match parseF64 t with
          | some q => decide (0 ≤ q)
          | none => true)

mutual

/-- Holds when every numeric source in the entity tree is non-negative
(the mention text needs no condition: its stripped form has no sign). -/
def nonnegSources : DocumentAiEntity → Bool
  | .mk _ _ normalized props =>
    nonnegNormalized normalized &&
      (match props with
       | some children => nonnegSourcesList children
       | none => true)

/-- Conjunction of nonnegSources over a child list. -/
def nonnegSourcesList : List DocumentAiEntity → Bool
  | [] => true
  | c :: rest => nonnegSources c && nonnegSourcesList rest

end

/-- Lifts nonnegSources over the optional entity list of a response. -/
def nonnegResponse (response : DocumentAiResponse) : Bool :=
  match response.document with
  | none => true
  | some document =>
    match document.entities with
    | none => true
    | some entities => nonnegSourcesList entities

/-! ## Concrete instances used by witnesses and counterexamples -/

/-- A total entity whose money units string is negative. -/
def entityNegUnits : DocumentAiEntity :=
  .mk (some ("total_amount")) none
    (some { text := none,
            moneyValue := some { units := some ("-12"), nanos := some 0 },
            dateValue := none })
    none

/-- A response carrying only the negative-units total entity. -/
def responseNegUnits : DocumentAiResponse :=
  { document := some { entities := some [entityNegUnits] } }

/-- A total entity with money units 12 and nanos 340000000. -/
def entityMoney1234 : DocumentAiEntity :=
  .mk (some ("total_amount")) none
    (some { text := none,
            moneyValue := some { units := some ("12"), nanos := some 340000000 },
            dateValue := none })
    none

/-- A response carrying only the 12.34 total entity. -/
def responseMoney1234 : DocumentAiResponse :=
  { document := some { entities := some [entityMoney1234] } }

/-- A total entity whose money units string carries a fraction. -/
def entityUnitsFrac : DocumentAiEntity :=
  .mk (some ("total_amount")) none
    (some { text := none,
            moneyValue := some { units := some ("12.5"), nanos := some 0 },
            dateValue := none })
    none

/-- An entity with a type tag outside every candidate list. -/
def entityTagOther : DocumentAiEntity := .mk (some ("other")) none none none

/-- An entity tagged with candidate type A. -/
def entityTagA : DocumentAiEntity := .mk (some ("A")) none none none

/-- An entity tagged with candidate type B. -/
def entityTagB : DocumentAiEntity := .mk (some ("B")) none none none

/-- A money value with units and nanos both absent, carried by an entity
whose mention text would parse as 999 were the fallback consulted. -/
def entityEmptyMoney : DocumentAiEntity :=
  .mk (some ("total_amount")) (some ("999"))
    (some { text := none,
            moneyValue := some { units := none, nanos := none },
            dateValue := none })
    none

/-- A date entity whose normalized date misses the day, with a mention. -/
def entityPartialDate : DocumentAiEntity :=
  .mk (some ("receipt_date")) (some ("Mar 5"))
    (some { text := none, moneyValue := none,
            dateValue := some { year := some 2024, month := some 3, day := none } })
    none

/-- Settings with the processor id absent and the rest present. -/
def settingsNoProcessor : OcrSettings :=
  { projectId := some ("proj"), location := some ("us"), processorId := none,
    serviceAccountJson := some ("sa-json") }

/-- Fully populated settings. -/
def settingsFull : OcrSettings :=
  { projectId := some ("proj"), location := some ("us"),
    processorId := some ("proc"), serviceAccountJson := some ("sa-json") }

/-- An environment whose external collaborators all succeed and whose
document response is empty. -/
def envProbe : ProviderEnv :=
  { parseServiceAccount := fun _ =>
      .ok { clientEmail := "e", privateKey := "k", tokenUri := none },
    signAssertion := fun _ => .ok ("assertion"),
    exchangeToken := fun _ _ => .ok ("token"),
    processDocument := fun _ _ _ _ => .ok { document := none } }

/-- The probe environment answering with the negative-units response. -/
def envNegUnits : ProviderEnv :=
  { envProbe with processDocument := fun _ _ _ _ => .ok responseNegUnits }

/-- First batch request of the three-job scenario. -/
def request0 : OcrRequest :=
  { filePath := "a/r0.png", fileContent := "c0", mimeType := "image/png" }

/-- Second batch request of the three-job scenario (the failing one). -/
def request1 : OcrRequest :=
  { filePath := "a/r1.png", fileContent := "c1", mimeType := "image/png" }

/-- Third batch request of the three-job scenario. -/
def request2 : OcrRequest :=
  { filePath := "a/r2.png", fileContent := "c2", mimeType := "image/png" }

/-- The three-job batch. -/
def requests3 : List OcrRequest := [request0, request1, request2]

/-- A provider call that fails exactly on the second request. -/
def extractFail1 (request : OcrRequest) : Except String ReceiptData :=
  if request.filePath = "a/r1.png" then .error ("boom")
  else .ok (ReceiptData.new (basename request.filePath))

/-- A provider call that succeeds on every request. -/
def extractOk (request : OcrRequest) : Except String ReceiptData :=
  .ok (ReceiptData.new (basename request.filePath))

/-! ## Shared helper lemmas -/

/-- The source find_entity agrees with the specification wording: the
first candidate type that matches anything selects the first entity in
document order of that type. -/
theorem find_entity_eq_spec (entities : List DocumentAiEntity) (types : List String) :
    find_entity entities types = findEntitySpec entities types := by
  induction types with
  | nil => rfl
  | cons t rest ih =>
    unfold find_entity findEntitySpec
    cases hfind : entities.find? (fun e => e.entityType = some t) with
    | some e =>
      have hp :=
        @List.find?_some _ (fun e => decide (e.entityType = some t)) e entities hfind
      have hany : (entities.any fun e => decide (e.entityType = some t)) = true := by
        simp only [List.any_eq_true]
        exact ⟨e, List.mem_of_find?_eq_some hfind, hp⟩
      simp [List.find?, hany, hfind]
    | none =>
      have hany : (entities.any fun e => decide (e.entityType = some t)) = false := by
        simp only [List.any_eq_false]
        intro x hx
        exact List.find?_eq_none.mp hfind x hx
      simp only [List.find?, hany]
      exact ih

/-- The enumeration of a list is strictly sorted on its index component. -/
theorem enum_pairwise_lt {α : Type} (xs : List α) :
    xs.enum.Pairwise (fun a b => a.1 < b.1) := by
  have h := List.pairwise_lt_range xs.length
  rw [← List.enum_map_fst xs] at h
  exact List.pairwise_map.mp h

/-- Sorting any permutation of an enumeration by the index component
recovers the enumeration itself: the keys are distinct, so the sorted
order is unique. -/
theorem sortByIndex_perm_enum {xs : List OcrResult} {l : List (ℕ × OcrResult)}
    (h : l.Perm xs.enum) : sortByIndex l = xs.enum := by
  unfold sortByIndex
  have hperm : (l.mergeSort (fun a b => a.1 ≤ b.1)).Perm xs.enum :=
    (List.mergeSort_perm l _).trans h
  have htrans : ∀ (a b c : ℕ × OcrResult),
      (fun a b : ℕ × OcrResult => decide (a.1 ≤ b.1)) a b = true →
      (fun a b : ℕ × OcrResult => decide (a.1 ≤ b.1)) b c = true →
      (fun a b : ℕ × OcrResult => decide (a.1 ≤ b.1)) a c = true := by
    intro a b c hab hbc
    simp only [decide_eq_true_eq] at hab hbc ⊢
    omega
  have htotal : ∀ (a b : ℕ × OcrResult),
      ((fun a b : ℕ × OcrResult => decide (a.1 ≤ b.1)) a b
        || (fun a b : ℕ × OcrResult => decide (a.1 ≤ b.1)) b a) = true := by
    intro a b
    simp only [Bool.or_eq_true, decide_eq_true_eq]
    omega
  have hsorted := List.sorted_mergeSort htrans htotal l
  have hle : (l.mergeSort (fun a b => a.1 ≤ b.1)).Pairwise
      (fun a b : ℕ × OcrResult => a.1 ≤ b.1) :=
    hsorted.imp (fun hab => by simpa using hab)
  have hnodup : ((l.mergeSort (fun a b => a.1 ≤ b.1)).map Prod.fst).Nodup := by
    have he : (xs.enum.map Prod.fst).Nodup := by
      rw [List.enum_map_fst]
      exact List.nodup_range _
    exact ((hperm.map Prod.fst).symm).nodup he
  have hne : (l.mergeSort (fun a b => a.1 ≤ b.1)).Pairwise
      (fun a b : ℕ × OcrResult => a.1 ≠ b.1) :=
    List.pairwise_map.mp hnodup
  have hlt : (l.mergeSort (fun a b => a.1 ≤ b.1)).Pairwise
      (fun a b : ℕ × OcrResult => a.1 < b.1) :=
    (hle.and hne).imp (fun hab => lt_of_le_of_ne hab.1 hab.2)
  haveI : IsAntisymm (ℕ × OcrResult) (fun a b => a.1 < b.1) :=
    ⟨fun a b h1 h2 => absurd h2 (not_lt.mpr (le_of_lt h1))⟩
  exact List.eq_of_perm_of_sorted hperm hlt (enum_pairwise_lt xs)

/-- Aggregating any permutation of the index-tagged task results yields
the per-request results in submission order. -/
theorem batchCollect_perm_eq {extract : OcrRequest → Except String ReceiptData}
    {requests : List OcrRequest} {collected : List (ℕ × OcrResult)}
    (h : collected.Perm (indexedResults extract requests)) :
    batchCollect collected = requests.map (runJob extract) := by
  have h1 : indexedResults extract requests = (requests.map (runJob extract)).enum := by
    unfold indexedResults
    rw [List.enum_map]
    rfl
  rw [h1] at h
  unfold batchCollect
  rw [sortByIndex_perm_enum h, List.enum_map_snd]

end Torifune

namespace Torifune

/-- C4: for every entity list and every ordered candidate-type list,
find_entity iterates candidate types in priority order and returns the
first entity in document order whose type tag equals the first candidate
type that matches anything; in particular an entity matching an
earlier-priority type wins over one matching a later-priority type even
when the latter comes earlier in the document, and the later-priority
entity is returned when no earlier-priority type matches. -/
theorem find_entity_priority_dominates :
    (∀ (entities : List DocumentAiEntity) (types : List String),
      find_entity entities types = findEntitySpec entities types)
    ∧ find_entity [entityTagOther, entityTagB] ["A", "B"] = some entityTagB
    ∧ find_entity [entityTagB, entityTagA] ["A", "B"] = some entityTagA := by
  refine ⟨find_entity_eq_spec, ?_, ?_⟩ <;>
    simp [find_entity, entityTagOther, entityTagA, entityTagB,
      DocumentAiEntity.entityType, List.find?]

/-- C1: for every submitted batch, under any completion order of the
concurrent jobs, batch_ocr_receipts returns exactly one outcome per job
and the outcome at index i is the result of extracting the job submitted
at index i: any permutation of the collected index-tagged results
aggregates to the same submission-ordered sequence. -/
theorem batch_results_in_submission_order
    (extract : OcrRequest → Except String ReceiptData) (requests : List OcrRequest)
    (collected : List (ℕ × OcrResult))
    (h : collected.Perm (indexedResults extract requests)) :
    batchCollect collected = batch_ocr_receipts extract requests
    ∧ (batchCollect collected).length = requests.length
    ∧ ∀ i : ℕ, (batchCollect collected)[i]? = (requests[i]?).map (runJob extract) := by
  have hc := batchCollect_perm_eq h
  have hb : batch_ocr_receipts extract requests = requests.map (runJob extract) :=
    batchCollect_perm_eq (List.Perm.refl _)
  refine ⟨hc.trans hb.symm, ?_, ?_⟩
  · rw [hc, List.length_map]
  · intro i
    rw [hc, List.getElem?_map]

/-- C1 witness: a two-job batch whose index-tagged results are collected
in reversed completion order still aggregates to the submission order. -/
theorem batch_results_in_submission_order_witness :
    batchCollect [(1, runJob extractOk request1), (0, runJob extractOk request0)]
        = batch_ocr_receipts extractOk [request0, request1]
    ∧ (batchCollect [(1, runJob extractOk request1), (0, runJob extractOk request0)]).length
        = [request0, request1].length
    ∧ (batchCollect [(1, runJob extractOk request1), (0, runJob extractOk request0)])[0]?
        = ([request0, request1][0]?).map (runJob extractOk)
    ∧ (batchCollect [(1, runJob extractOk request1), (0, runJob extractOk request0)])[1]?
        = ([request0, request1][1]?).map (runJob extractOk) := by
  have hperm : [(1, runJob extractOk request1), (0, runJob extractOk request0)].Perm
      (indexedResults extractOk [request0, request1]) := by
    have hidx : indexedResults extractOk [request0, request1]
        = [(0, runJob extractOk request0), (1, runJob extractOk request1)] := rfl
    rw [hidx]
    exact List.Perm.swap _ _ _
  have h := batch_results_in_submission_order extractOk [request0, request1] _ hperm
  exact ⟨h.1, h.2.1, h.2.2 0, h.2.2 1⟩

/-- C7: a failure inside one job's extraction pipeline becomes that job's
own outcome, with success false and the error message present, and every
job's outcome (failing or not) is exactly the conversion of its own
extraction result, so sibling jobs are unaffected and the batch runs
every job to completion. -/
theorem batch_failure_isolated
    (extract : OcrRequest → Except String ReceiptData) (requests : List OcrRequest)
    (i : ℕ) (r : OcrRequest) (e : String)
    (hreq : requests[i]? = some r) (herr : extract r = .error e) :
    (batch_ocr_receipts extract requests)[i]?
        = some { success := false, data := none, error := some e }
    ∧ ∀ (j : ℕ) (rj : OcrRequest), requests[j]? = some rj →
        (batch_ocr_receipts extract requests)[j]? = some (runJob extract rj) := by
  have hb : batch_ocr_receipts extract requests = requests.map (runJob extract) :=
    batchCollect_perm_eq (List.Perm.refl _)
  constructor
  · rw [hb, List.getElem?_map, hreq]
    simp [runJob, herr, OcrResult.mkFailure]
  · intro j rj hj
    rw [hb, List.getElem?_map, hj]
    rfl

/-- C7 witness: in the three-job batch where exactly the second request
fails, the outcome sequence has its only failure at index 1 and both
siblings are untouched successes. -/
theorem batch_failure_isolated_witness :
    (batch_ocr_receipts extractFail1 requests3)[1]?
        = some { success := false, data := none, error := some ("boom") }
    ∧ (batch_ocr_receipts extractFail1 requests3)[0]?
        = some (runJob extractFail1 request0)
    ∧ (batch_ocr_receipts extractFail1 requests3)[2]?
        = some (runJob extractFail1 request2)
    ∧ (batch_ocr_receipts extractFail1 requests3).map OcrResult.success
        = [true, false, true] := by
  have h := batch_failure_isolated extractFail1 requests3 1 request1 ("boom") rfl rfl
  refine ⟨h.1, h.2 0 request0 rfl, h.2 2 request2 rfl, ?_⟩
  have hb : batch_ocr_receipts extractFail1 requests3
      = requests3.map (runJob extractFail1) :=
    batchCollect_perm_eq (List.Perm.refl _)
  rw [hb]
  rfl

/-- C10: the empty batch succeeds, returns the empty outcome sequence and
emits no progress events under any (necessarily empty) completion order. -/
theorem batch_empty_no_events (extract : OcrRequest → Except String ReceiptData)
    (order : List ℕ) (h : order.Perm (List.range 0)) :
    batch_ocr_receipts extract [] = [] ∧ batchEvents extract [] order = [] := by
  have horder : order = [] := by
    rw [List.range_zero] at h
    exact h.eq_nil
  subst horder
  constructor
  · simp [batch_ocr_receipts, batchCollect, sortByIndex, indexedResults,
      List.mergeSort_nil]
  · rfl

/-- C10 witness: the empty batch with the empty schedule. -/
theorem batch_empty_no_events_witness :
    batch_ocr_receipts extractOk [] = [] ∧ batchEvents extractOk [] [] = [] :=
  batch_empty_no_events extractOk [] (by rw [List.range_zero])

/-- In the initial orchestrator state no job holds a permit. -/
theorem runningCount_initState (n : ℕ) : runningCount (initState n) = 0 := by
  simp [runningCount, initState, List.countP_replicate]

/-- C2: in every reachable state of the batch orchestrator at most
MAX_CONCURRENT_OCR (three) jobs hold a gate permit, so at most three jobs
are inside their remote extract_receipt call at any point; moreover a job
can only become done by a step out of the permit-holding running phase, so
every terminating job releases its slot, on success and failure alike. -/
theorem admission_gate_bound {n : ℕ} {s : List JobPhase} (h : BatchReachable n s) :
    runningCount s ≤ MAX_CONCURRENT_OCR
    ∧ ∀ t, BatchStep s t → ∀ i : ℕ, t[i]? = some JobPhase.done →
        s[i]? = some JobPhase.running ∨ s[i]? = some JobPhase.done := by
  constructor
  · induction h with
    | init => simp [runningCount_initState]
    | step hs hst ih =>
      cases hst with
      | spawn i hget =>
        obtain ⟨hlt, hval⟩ := List.getElem?_eq_some.mp hget
        have hc := List.countP_set (fun ph => decide (ph = JobPhase.running))
          _ i JobPhase.waiting hlt
        simp only [runningCount, MAX_CONCURRENT_OCR] at ih ⊢
        rw [hc, hval]
        simp
        omega
      | acquire i hget hgate =>
        obtain ⟨hlt, hval⟩ := List.getElem?_eq_some.mp hget
        have hc := List.countP_set (fun ph => decide (ph = JobPhase.running))
          _ i JobPhase.running hlt
        simp only [runningCount, MAX_CONCURRENT_OCR] at ih hgate ⊢
        rw [hc, hval]
        simp
        omega
      | finish i hget =>
        obtain ⟨hlt, hval⟩ := List.getElem?_eq_some.mp hget
        have hc := List.countP_set (fun ph => decide (ph = JobPhase.running))
          _ i JobPhase.done hlt
        simp only [runningCount, MAX_CONCURRENT_OCR] at ih ⊢
        rw [hc, hval]
        simp
        omega
  · intro t hst i hdone
    cases hst with
    | spawn j hget =>
      rw [List.getElem?_set] at hdone
      by_cases hji : j = i
      · simp [hji] at hdone
      · simp [hji] at hdone
        exact Or.inr hdone
    | acquire j hget hgate =>
      rw [List.getElem?_set] at hdone
      by_cases hji : j = i
      · simp [hji] at hdone
      · simp [hji] at hdone
        exact Or.inr hdone
    | finish j hget =>
      rw [List.getElem?_set] at hdone
      by_cases hji : j = i
      · subst hji
        exact Or.inl hget
      · simp [hji] at hdone
        exact Or.inr hdone

/-- C2 witness: a reachable four-job state with three jobs holding
permits, obtained by spawning all four tasks and admitting three,
satisfies the gate bound. -/
theorem admission_gate_bound_witness :
    runningCount [JobPhase.running, JobPhase.running, JobPhase.running, JobPhase.waiting]
      ≤ MAX_CONCURRENT_OCR := by
  have h0 : BatchReachable 4 (initState 4) := BatchReachable.init
  have h1 := h0.step (BatchStep.spawn _ 0 (by rfl))
  have h2 := h1.step (BatchStep.spawn _ 1 (by rfl))
  have h3 := h2.step (BatchStep.spawn _ 2 (by rfl))
  have h4 := h3.step (BatchStep.spawn _ 3 (by rfl))
  have h5 := h4.step (BatchStep.acquire _ 0 (by rfl) (by decide))
  have h6 := h5.step (BatchStep.acquire _ 1 (by rfl) (by decide))
  have h7 := h6.step (BatchStep.acquire _ 2 (by rfl) (by decide))
  have hfinal : BatchReachable 4
      [JobPhase.running, JobPhase.running, JobPhase.running, JobPhase.waiting] := h7
  exact (admission_gate_bound hfinal).1

end Torifune

namespace Torifune

/-- C6: when any of projectId, processorId or serviceAccountJson is
absent, both test_connection and extract_receipt fail immediately with the
configuration error and their trace of external calls is empty: no
credential parse, token fetch or document submission happens before the
configuration check rejects. -/
theorem unconfigured_fails_without_network (env : ProviderEnv) (settings : OcrSettings)
    (h : settings.projectId = none ∨ settings.processorId = none
      ∨ settings.serviceAccountJson = none) :
    test_connection env settings = (.error ("設定が不完全です"), [])
    ∧ ∀ p c m : String,
        extract_receipt env p c m settings = (.error ("OCR設定が不完全です"), []) := by
  have hc : is_configured settings = false := by
    rcases h with h | h | h <;> simp [is_configured, h]
  constructor
  · simp [test_connection, hc]
  · intro p c m
    simp [extract_receipt, hc]

/-- C6 witness: settings missing only the processor id are rejected by
both operations with an empty trace, even in an environment whose
collaborators would all succeed. -/
theorem unconfigured_fails_without_network_witness :
    test_connection envProbe settingsNoProcessor = (.error ("設定が不完全です"), [])
    ∧ extract_receipt envProbe ("r.png") ("content") ("image/png") settingsNoProcessor
        = (.error ("OCR設定が不完全です"), []) := by
  have h := unconfigured_fails_without_network envProbe settingsNoProcessor
    (Or.inr (Or.inl rfl))
  exact ⟨h.1, h.2 ("r.png") ("content") ("image/png")⟩

/-- C8: whenever the normalized money value is present, resolve_total
returns the money branch value unconditionally, units defaulting to 0 when
absent or unparsable and nanos to 0 when absent, so the normalized-text,
mention-text and child-recursion fallbacks are never consulted. -/
theorem money_branch_unconditional (entity : DocumentAiEntity)
    (nv : DocumentAiNormalizedValue) (money : DocumentAiMoneyValue)
    (hnv : entity.normalizedValue = some nv) (hm : nv.moneyValue = some money) :
    resolve_total entity
      = some (((money.units.bind parseF64).getD 0)
          + (money.nanos.getD 0 : ℚ) / 1000000000) := by
  cases entity with
  | mk t mention n props =>
    simp only [DocumentAiEntity.normalizedValue] at hnv
    subst hnv
    have h1 : resolveTotalNormalized (some nv)
        = some (((money.units.bind parseF64).getD 0)
            + (money.nanos.getD 0 : ℚ) / 1000000000) := by
      simp [resolveTotalNormalized, hm]
    rw [resolve_total.eq_def]
    simp only [h1]

/-- C8 witness: a money value with units and nanos both absent resolves to
0 even though the mention text would parse as 999. -/
theorem money_branch_unconditional_witness :
    resolve_total entityEmptyMoney = some (0 : ℚ) := by
  have h := money_branch_unconditional entityEmptyMoney
    { text := none, moneyValue := some { units := none, nanos := none }, dateValue := none }
    { units := none, nanos := none } rfl rfl
  rw [h]
  norm_num

/-- C9: when the normalized value is present but carries no text and its
date value is absent or misses year, month or day, resolve_text falls back
to the mention text, and in particular returns absent exactly when the
mention text is absent. -/
theorem resolve_text_partial_date_falls_back (entity : DocumentAiEntity)
    (nv : DocumentAiNormalizedValue)
    (hnv : entity.normalizedValue = some nv) (htext : nv.text = none)
    (hdate : nv.dateValue = none
      ∨ ∃ dv : DocumentAiDateValue, nv.dateValue = some dv
          ∧ (dv.year = none ∨ dv.month = none ∨ dv.day = none)) :
    resolve_text entity = entity.mentionText
    ∧ (resolve_text entity = none ↔ entity.mentionText = none) := by
  have hmain : resolve_text entity = entity.mentionText := by
    cases entity with
    | mk t mention n props =>
      simp only [DocumentAiEntity.normalizedValue] at hnv
      subst hnv
      rcases hdate with hd | ⟨dv, hdv, hcase⟩
      · simp [resolve_text, DocumentAiEntity.normalizedValue,
          DocumentAiEntity.mentionText, htext, hd]
      · rcases hcase with h1 | h1 | h1
        · simp [resolve_text, DocumentAiEntity.normalizedValue,
            DocumentAiEntity.mentionText, htext, hdv, h1]
        · cases hy : dv.year with
          | none =>
            simp [resolve_text, DocumentAiEntity.normalizedValue,
              DocumentAiEntity.mentionText, htext, hdv, hy]
          | some y =>
            simp [resolve_text, DocumentAiEntity.normalizedValue,
              DocumentAiEntity.mentionText, htext, hdv, hy, h1]
        · cases hy : dv.year with
          | none =>
            simp [resolve_text, DocumentAiEntity.normalizedValue,
              DocumentAiEntity.mentionText, htext, hdv, hy]
          | some y =>
            cases hm2 : dv.month with
            | none =>
              simp [resolve_text, DocumentAiEntity.normalizedValue,
                DocumentAiEntity.mentionText, htext, hdv, hy, hm2]
            | some m2 =>
              simp [resolve_text, DocumentAiEntity.normalizedValue,
                DocumentAiEntity.mentionText, htext, hdv, hy, hm2, h1]
  exact ⟨hmain, by rw [hmain]⟩

/-- C9 witness: a date entity missing the day falls back to its mention
text, which is present. -/
theorem resolve_text_partial_date_falls_back_witness :
    resolve_text entityPartialDate = entityPartialDate.mentionText
    ∧ (resolve_text entityPartialDate = none ↔ entityPartialDate.mentionText = none) :=
  resolve_text_partial_date_falls_back entityPartialDate
    { text := none, moneyValue := none,
      dateValue := some { year := some 2024, month := some 3, day := none } }
    rfl rfl (Or.inr ⟨_, rfl, Or.inr (Or.inr rfl)⟩)

end Torifune

namespace Torifune

/-- The normalized-value block of the source equals the first two branches
of the specification wording tried in order. -/
theorem resolveTotalNormalized_eq_branches (n : Option DocumentAiNormalizedValue) :
    resolveTotalNormalized n
      = match specMoneyFloat n with
        | some v => some v
        | none => specNormalizedText n := by
  cases n with
  | none => rfl
  | some nv =>
    cases hm : nv.moneyValue with
    | some money =>
      simp [resolveTotalNormalized, specMoneyFloat, hm]
    | none =>
      cases ht : nv.text with
      | some text =>
        simp [resolveTotalNormalized, specMoneyFloat, specNormalizedText, hm, ht]
      | none =>
        simp [resolveTotalNormalized, specMoneyFloat, specNormalizedText, hm, ht]

/-- The mention-text block of the source equals the third branch of the
specification wording. -/
theorem resolveTotalMention_eq_branch (m : Option String) :
    resolveTotalMention m = specMentionText m := by
  cases m <;> rfl

mutual

/-- The source resolve_total computes exactly the specification-worded
branch order with float-parsed units, on every entity. -/
theorem resolve_total_eq_specFloat (e : DocumentAiEntity) :
    resolve_total e = resolveAmountSpecFloat e :=
  match e with
  | .mk t mention normalized props => by
    rw [resolve_total.eq_def, resolveAmountSpecFloat.eq_def]
    simp only []
    rw [resolveTotalNormalized_eq_branches]
    cases h1 : specMoneyFloat normalized with
    | some v => simp [h1]
    | none =>
      simp only [h1]
      cases h2 : specNormalizedText normalized with
      | some v => simp [h2]
      | none =>
        simp only [h2]
        rw [resolveTotalMention_eq_branch]
        cases h3 : specMentionText mention with
        | some v => simp [h3]
        | none =>
          simp only [h3]
          cases props with
          | none => rfl
          | some children =>
            simp only []
            exact resolve_total_props_eq_specFloat children

/-- The child loop of the source equals the specification depth-first
child recursion, on every child list. -/
theorem resolve_total_props_eq_specFloat (l : List DocumentAiEntity) :
    resolve_total_props l = resolveAmountSpecFloatList l :=
  match l with
  | [] => rfl
  | c :: rest => by
    rw [resolve_total_props.eq_def, resolveAmountSpecFloatList.eq_def]
    simp only []
    rw [resolve_total_eq_specFloat c]
    cases h : resolveAmountSpecFloat c with
    | some v => simp [h]
    | none =>
      simp only [h]
      exact resolve_total_props_eq_specFloat rest

end

end Torifune

namespace Torifune

/-- C5 counterexample: on money units 12.5 the source resolve_total
f64-parses the units and returns 12.5, while the claimed algorithm parses
units as a decimal integer string, fails, defaults to 0 and returns 0. -/
theorem resolve_total_integer_units_counterexample :
    resolve_total entityUnitsFrac = some ((25 : ℚ) / 2)
    ∧ resolveAmountSpecInt entityUnitsFrac = some (0 : ℚ)
    ∧ ((25 : ℚ) / 2) ≠ (0 : ℚ) := by
  refine ⟨?_, ?_, by norm_num⟩
  · rw [resolve_total.eq_def]
    simp [entityUnitsFrac, resolveTotalNormalized, parseF64, parseMantissaExp,
      applyExp, mantVal, parseDigitsNat, digitsToNat, String.toList]
    norm_num
  · have hint : parseIntStr ("12.5") = none := by decide
    rw [resolveAmountSpecInt.eq_def]
    simp [entityUnitsFrac, specMoneyInt, hint]

/-- C5 amended: resolve_total tries the branches in the fixed order money
(units parsed as a decimal number, default 0 on parse failure, plus nanos
over 1e9), normalized text as floating decimal, mention text stripped to
digits and dots, then depth-first child recursion, first success winning;
in particular money units 12 with nanos 340000000 resolves to 12.34. -/
theorem resolve_total_branch_order :
    (∀ e : DocumentAiEntity, resolve_total e = resolveAmountSpecFloat e)
    ∧ resolve_total entityMoney1234 = some ((617 : ℚ) / 50) := by
  refine ⟨resolve_total_eq_specFloat, ?_⟩
  rw [resolve_total.eq_def]
  simp [entityMoney1234, resolveTotalNormalized, parseF64, parseMantissaExp,
    applyExp, mantVal, parseDigitsNat, digitsToNat, String.toList]
  norm_num

end Torifune

namespace Torifune

/-- The mantissa value of digit lists is non-negative. -/
theorem mantVal_nonneg (a b : List Char) : 0 ≤ mantVal a b := by
  unfold mantVal
  positivity

/-- Applying an exponent suffix to a non-negative mantissa keeps every
successful result non-negative. -/
theorem applyExp_nonneg (m : ℚ) (hm : 0 ≤ m) (rest : List Char) (q : ℚ)
    (hq : applyExp m rest = some q) : 0 ≤ q := by
  unfold applyExp at hq
  split at hq
  · obtain rfl : m = q := by simpa using hq
    exact hm
  · simp only [Option.map_eq_some'] at hq
    obtain ⟨k, hk, rfl⟩ := hq
    exact mul_nonneg hm (zpow_nonneg (by norm_num) k)
  · simp only [Option.map_eq_some'] at hq
    obtain ⟨k, hk, rfl⟩ := hq
    exact mul_nonneg hm (zpow_nonneg (by norm_num) k)
  · simp at hq

/-- The unsigned mantissa parser only produces non-negative values. -/
theorem parseMantissaExp_nonneg (cs : List Char) (q : ℚ)
    (hq : parseMantissaExp cs = some q) : 0 ≤ q := by
  unfold parseMantissaExp at hq
  split at hq
  · split at hq
    · simp at hq
    · exact applyExp_nonneg _ (mantVal_nonneg _ _) _ q hq
  · split at hq
    · simp at hq
    · exact applyExp_nonneg _ (mantVal_nonneg _ _) _ q hq

/-- Parsing a stripped mention text never produces a negative value: the
strip keeps only digits and dots, so no sign can survive. -/
theorem parseF64_strip_nonneg (s : String) (q : ℚ)
    (hq : parseF64 (stripToAmountChars s) = some q) : 0 ≤ q := by
  have htl : (stripToAmountChars s).toList
      = s.toList.filter (fun c => c.isDigit || c = '.') := rfl
  unfold parseF64 at hq
  rw [htl] at hq
  split at hq
  · exfalso
    rename_i rest heq
    have hm : ('-' : Char) ∈ s.toList.filter (fun c => c.isDigit || c = '.') := by
      rw [heq]
      exact List.mem_cons_self _ _
    have hpred := (List.mem_filter.mp hm).2
    simp at hpred
  · exfalso
    rename_i rest heq
    have hm : ('+' : Char) ∈ s.toList.filter (fun c => c.isDigit || c = '.') := by
      rw [heq]
      exact List.mem_cons_self _ _
    have hpred := (List.mem_filter.mp hm).2
    simp at hpred
  · exact parseMantissaExp_nonneg _ q hq

/-- Under the nonnegNormalized condition the normalized-value block only
produces non-negative values. -/
theorem resolveTotalNormalized_nonneg (n : Option DocumentAiNormalizedValue)
    (hn : nonnegNormalized n = true) (q : ℚ)
    (hq : resolveTotalNormalized n = some q) : 0 ≤ q := by
  cases n with
  | none => simp [resolveTotalNormalized] at hq
  | some nv =>
    simp only [nonnegNormalized] at hn
    simp only [resolveTotalNormalized] at hq
    rw [Bool.and_eq_true] at hn
    obtain ⟨hmoney, htext⟩ := hn
    cases hm : nv.moneyValue with
    | some money =>
      rw [hm] at hmoney hq
      rw [Bool.and_eq_true] at hmoney
      obtain ⟨hunits, hnanos⟩ := hmoney
      have hnanos' : (0 : ℤ) ≤ money.nanos.getD 0 := of_decide_eq_true hnanos
      obtain rfl : ((money.units.bind parseF64).getD 0)
          + (money.nanos.getD 0 : ℚ) / 1000000000 = q := by simpa using hq
      have h9 : (0 : ℚ) ≤ (money.nanos.getD 0 : ℚ) / 1000000000 := by
        apply div_nonneg _ (by norm_num)
        exact_mod_cast hnanos'
      cases hub : money.units.bind parseF64 with
      | none =>
        simpa using h9
      | some u =>
        have hu' : (0 : ℚ) ≤ u := by
          rw [hub] at hunits
          simpa using hunits
        simpa using add_nonneg hu' h9
    | none =>
      rw [hm] at hq
      cases ht : nv.text with
      | none =>
        rw [ht] at hq
        simp at hq
      | some text =>
        rw [ht] at hq htext
        simp only [] at hq htext
        cases hp : parseF64 text with
        | none =>
          rw [hp] at hq
          simp at hq
        | some v =>
          rw [hp] at hq htext
          obtain rfl : v = q := by simpa using hq
          simpa using htext

mutual

/-- Under the nonnegSources condition resolve_total only produces
non-negative values. -/
theorem resolve_total_nonneg (e : DocumentAiEntity) (he : nonnegSources e = true)
    (q : ℚ) (hq : resolve_total e = some q) : 0 ≤ q :=
  match e with
  | .mk t mention normalized props => by
    rw [resolve_total.eq_def] at hq
    rw [nonnegSources.eq_def] at he
    simp only [] at hq he
    rw [Bool.and_eq_true] at he
    obtain ⟨hnorm, hprops⟩ := he
    cases h1 : resolveTotalNormalized normalized with
    | some v =>
      simp only [h1] at hq
      obtain rfl : v = q := by simpa using hq
      exact resolveTotalNormalized_nonneg normalized hnorm v h1
    | none =>
      simp only [h1] at hq
      cases h2 : resolveTotalMention mention with
      | some v =>
        simp only [h2] at hq
        obtain rfl : v = q := by simpa using hq
        cases mention with
        | none => simp [resolveTotalMention] at h2
        | some m =>
          simp only [resolveTotalMention] at h2
          exact parseF64_strip_nonneg m v h2
      | none =>
        simp only [h2] at hq
        cases props with
        | none => simp at hq
        | some children =>
          simp only [] at hq hprops
          exact resolve_total_props_nonneg children hprops q hq

/-- Under the nonnegSourcesList condition the child loop only produces
non-negative values. -/
theorem resolve_total_props_nonneg (l : List DocumentAiEntity)
    (hl : nonnegSourcesList l = true) (q : ℚ)
    (hq : resolve_total_props l = some q) : 0 ≤ q :=
  match l with
  | [] => by
    rw [resolve_total_props.eq_def] at hq
    simp at hq
  | c :: rest => by
    rw [resolve_total_props.eq_def] at hq
    rw [nonnegSourcesList.eq_def] at hl
    simp only [] at hq hl
    rw [Bool.and_eq_true] at hl
    obtain ⟨hc, hrest⟩ := hl
    cases h : resolve_total c with
    | some v =>
      simp only [h] at hq
      obtain rfl : v = q := by simpa using hq
      exact resolve_total_nonneg c hc v h
    | none =>
      simp only [h] at hq
      exact resolve_total_props_nonneg rest hrest q hq

end

/-- A found entity belongs to the searched list. -/
theorem find_entity_mem {entities : List DocumentAiEntity} {types : List String}
    {e : DocumentAiEntity} (h : find_entity entities types = some e) : e ∈ entities := by
  induction types with
  | nil => simp [find_entity] at h
  | cons t rest ih =>
    unfold find_entity at h
    cases hf : entities.find? (fun x => x.entityType = some t) with
    | some x =>
      rw [hf] at h
      obtain rfl : x = e := by simpa using h
      exact List.mem_of_find?_eq_some hf
    | none =>
      rw [hf] at h
      exact ih h

/-- Membership transfers the list-level non-negativity condition. -/
theorem nonnegSourcesList_mem {l : List DocumentAiEntity} {e : DocumentAiEntity}
    (hl : nonnegSourcesList l = true) (he : e ∈ l) : nonnegSources e = true := by
  induction l with
  | nil => simp at he
  | cons c rest ih =>
    rw [nonnegSourcesList.eq_def] at hl
    simp only [] at hl
    rw [Bool.and_eq_true] at hl
    rcases List.mem_cons.mp he with rfl | hmem
    · exact hl.1
    · exact ih hl.2 hmem

/-- The amount of an assembled receipt is exactly the resolution of the
total entity found in the response entities. -/
theorem buildReceipt_amount (fileName : String) (entities : List DocumentAiEntity) :
    (buildReceipt fileName { document := some { entities := some entities } }).amount
      = (find_entity entities ["total_amount", "invoice_total", "receipt_total"]).bind
          resolve_total := by
  unfold buildReceipt
  cases h1 : find_entity entities
      ["merchant_name", "supplier_name", "vendor_name", "receipt_merchant_name"] <;>
  cases h2 : find_entity entities
      ["receipt_date", "purchase_date", "transaction_date", "invoice_date", "date"] <;>
  cases h3 : find_entity entities
      ["total_amount", "invoice_total", "receipt_total"] <;>
    simp [h1, h2, h3, ReceiptData.new]

end Torifune

namespace Torifune

/-- C3 counterexample: an entity tree whose money units string is -12
makes resolve_total yield -12, and the assembled receipt record carries
the negative amount -12, so a present amount is not always non-negative. -/
theorem receipt_amount_negative_counterexample :
    resolve_total entityNegUnits = some (-12 : ℚ)
    ∧ (buildReceipt ("r.png") responseNegUnits).amount = some (-12 : ℚ)
    ∧ ((-12 : ℚ) < 0) := by
  have h1 : resolve_total entityNegUnits = some (-12 : ℚ) := by
    rw [resolve_total.eq_def]
    simp [entityNegUnits, resolveTotalNormalized, parseF64, parseMantissaExp,
      applyExp, mantVal, parseDigitsNat, digitsToNat, String.toList]
  refine ⟨h1, ?_, by norm_num⟩
  have h2 : (buildReceipt ("r.png") responseNegUnits).amount
      = (find_entity [entityNegUnits]
          ["total_amount", "invoice_total", "receipt_total"]).bind resolve_total :=
    buildReceipt_amount ("r.png") [entityNegUnits]
  have h3 : find_entity [entityNegUnits] ["total_amount", "invoice_total", "receipt_total"]
      = some entityNegUnits := by
    simp [find_entity, entityNegUnits, DocumentAiEntity.entityType, List.find?]
  rw [h2, h3]
  simpa using h1

/-- C3 amended: the amount of a receipt assembled from a response is
non-negative whenever every numeric source in the response entity tree is
non-negative (nonnegResponse); without that restriction resolve_total can
return negative values, as the counterexample with units -12 shows. -/
theorem receipt_amount_nonneg_of_nonneg_sources (fileName : String)
    (response : DocumentAiResponse) (hres : nonnegResponse response = true)
    (q : ℚ) (hq : (buildReceipt fileName response).amount = some q) : 0 ≤ q := by
  obtain ⟨doc⟩ := response
  cases doc with
  | none => simp [buildReceipt, ReceiptData.new] at hq
  | some document =>
    obtain ⟨ents⟩ := document
    cases ents with
    | none => simp [buildReceipt, ReceiptData.new] at hq
    | some entities =>
      rw [buildReceipt_amount] at hq
      unfold nonnegResponse at hres
      simp only [] at hres
      cases hf : find_entity entities ["total_amount", "invoice_total", "receipt_total"] with
      | none =>
        rw [hf] at hq
        simp at hq
      | some e =>
        rw [hf] at hq
        simp only [Option.some_bind] at hq
        exact resolve_total_nonneg e (nonnegSourcesList_mem hres (find_entity_mem hf)) q hq

/-- C3 witness: the 12.34 response satisfies the non-negativity condition
on its sources and its assembled amount 617/50 is non-negative. -/
theorem receipt_amount_nonneg_witness :
    nonnegResponse responseMoney1234 = true ∧ (0 : ℚ) ≤ (617 : ℚ) / 50 := by
  have hres : nonnegResponse responseMoney1234 = true := by
    simp only [nonnegResponse, responseMoney1234]
    rw [nonnegSourcesList.eq_def]
    simp only []
    rw [Bool.and_eq_true]
    constructor
    · rw [nonnegSources.eq_def]
      simp [entityMoney1234, nonnegNormalized, parseF64, parseMantissaExp, applyExp,
        mantVal, parseDigitsNat, digitsToNat, String.toList]
    · rw [nonnegSourcesList.eq_def]
  have hq : (buildReceipt ("r.png") responseMoney1234).amount = some ((617 : ℚ) / 50) := by
    have h2 : (buildReceipt ("r.png") responseMoney1234).amount
        = (find_entity [entityMoney1234]
            ["total_amount", "invoice_total", "receipt_total"]).bind resolve_total :=
      buildReceipt_amount ("r.png") [entityMoney1234]
    have h3 : find_entity [entityMoney1234] ["total_amount", "invoice_total", "receipt_total"]
        = some entityMoney1234 := by
      simp [find_entity, entityMoney1234, DocumentAiEntity.entityType, List.find?]
    rw [h2, h3]
    simp only [Option.some_bind]
    rw [resolve_total.eq_def]
    simp [entityMoney1234, resolveTotalNormalized, parseF64, parseMantissaExp,
      applyExp, mantVal, parseDigitsNat, digitsToNat, String.toList]
    norm_num
  exact ⟨hres, receipt_amount_nonneg_of_nonneg_sources ("r.png") responseMoney1234 hres _ hq⟩

end Torifune
